import Mathlib

/-!
Shallow embedding of the two Valyu adapters of open-webui:

* `src/backend/open_webui/retrieval/web/valyu.py` — `search_valyu`
* `src/backend/open_webui/retrieval/loaders/valyu.py` — `ValyuLoader`

Python dynamic values reachable from provider responses are modelled by the
mutual inductive `PyVal` (strings, integers, dicts with string keys, lists,
and `obj`: an arbitrary non-JSON-serializable object whose `str()` is given).
The remote provider, the host's `get_filtered_results` collaborator and the
availability of the `valyu` package are parameters of the embedded functions,
since they are external to the two source files.
-/

-- A Python value as it can occur in a Valyu provider response field.
-- `obj s` stands for an arbitrary object that `json.dumps` cannot serialize
-- and whose `str()` rendering is `s`.
mutual
inductive PyVal where
  | str : String → PyVal
  | num : Int → PyVal
  | dict : PyFields → PyVal
  | list : PyList → PyVal
  | obj : String → PyVal
deriving DecidableEq

inductive PyFields where
  | nil : PyFields
  | cons : String → PyVal → PyFields → PyFields
deriving DecidableEq

inductive PyList where
  | nil : PyList
  | cons : PyVal → PyList → PyList
deriving DecidableEq
end

def PyFields.toList : PyFields → List (String × PyVal)
  | .nil => []
  | .cons k v rest => (k, v) :: rest.toList

def PyFields.isNil : PyFields → Bool
  | .nil => true
  | .cons _ _ _ => false

def PyList.isNil : PyList → Bool
  | .nil => true
  | .cons _ _ => false

/-- Python truthiness (`bool(v)`) for the modelled values; arbitrary objects
are truthy by default. -/
def pyTruthy : PyVal → Bool
  | .str s => !s.isEmpty
  | .num n => n != 0
  | .dict d => !d.isNil
  | .list l => !l.isNil
  | .obj _ => true

def pyIsStr : PyVal → Bool
  | .str _ => true
  | _ => false

def pyIsDict : PyVal → Bool
  | .dict _ => true
  | _ => false

def pyIsList : PyVal → Bool
  | .list _ => true
  | _ => false

-- Model of Python `repr` on the modelled values (quote handling inside
-- strings is not needed for the provider payloads considered here).
mutual
def pyRepr : PyVal → String
  | .str s => "\x27" ++ s ++ "\x27"
  | .num n => toString n
  | .dict d => "\x7b" ++ pyReprFields d ++ "\x7d"
  | .list l => "[" ++ pyReprItems l ++ "]"
  | .obj s => s

def pyReprFields : PyFields → String
  | .nil => ""
  | .cons k v .nil => "\x27" ++ k ++ "\x27: " ++ pyRepr v
  | .cons k v (.cons k2 v2 rest) =>
    "\x27" ++ k ++ "\x27: " ++ pyRepr v ++ ", " ++ pyReprFields (PyFields.cons k2 v2 rest)

def pyReprItems : PyList → String
  | .nil => ""
  | .cons v .nil => pyRepr v
  | .cons v (.cons v2 rest) => pyRepr v ++ ", " ++ pyReprItems (PyList.cons v2 rest)
end

/-- Model of Python `str()`: identity on strings, `repr` otherwise. -/
def pyStr : PyVal → String
  | .str s => s
  | v => pyRepr v

def spaces (n : Nat) : String := String.mk (List.replicate n ' ')

def jsonQuote (s : String) : String := "\"" ++ s ++ "\""

-- Model of `json.dumps(v, indent=2)` at nesting level `lvl` (the indentation
-- of the opening brace). Returns `none` when the value contains a
-- non-serializable object, which in Python raises `TypeError`.
mutual
def dumps2 : PyVal → Nat → Option String
  | .str s, _ => some (jsonQuote s)
  | .num n, _ => some (toString n)
  | .obj _, _ => none
  | .dict .nil, _ => some "\x7b\x7d"
  | .dict (.cons k v rest), lvl =>
    match dumpsFields (PyFields.cons k v rest) (lvl + 2) with
    | some body => some ("\x7b\n" ++ body ++ "\n" ++ spaces lvl ++ "\x7d")
    | none => none
  | .list .nil, _ => some "[]"
  | .list (.cons v rest), lvl =>
    match dumpsItems (PyList.cons v rest) (lvl + 2) with
    | some body => some ("[\n" ++ body ++ "\n" ++ spaces lvl ++ "]")
    | none => none

def dumpsFields : PyFields → Nat → Option String
  | .nil, _ => some ""
  | .cons k v .nil, lvl =>
    match dumps2 v lvl with
    | some s => some (spaces lvl ++ jsonQuote k ++ ": " ++ s)
    | none => none
  | .cons k v (.cons k2 v2 rest), lvl =>
    match dumps2 v lvl, dumpsFields (PyFields.cons k2 v2 rest) lvl with
    | some s, some srest => some (spaces lvl ++ jsonQuote k ++ ": " ++ s ++ ",\n" ++ srest)
    | _, _ => none

def dumpsItems : PyList → Nat → Option String
  | .nil, _ => some ""
  | .cons v .nil, lvl =>
    match dumps2 v lvl with
    | some s => some (spaces lvl ++ s)
    | none => none
  | .cons v (.cons v2 rest), lvl =>
    match dumps2 v lvl, dumpsItems (PyList.cons v2 rest) lvl with
    | some s, some srest => some (spaces lvl ++ s ++ ",\n" ++ srest)
    | _, _ => none
end

/-! ## Search adapter: `search_valyu` in `retrieval/web/valyu.py` -/

/-- A raw item of the provider search response. Each field models
`getattr(result, field, default)`: an absent attribute is represented by the
default itself (`""` for url/title/content/text/snippet, `"unstructured"`
for data_type). -/
structure RawSearchResult where
  url : String
  title : String
  content : PyVal
  text : PyVal
  snippet : PyVal
  data_type : String
deriving DecidableEq

/-- Provider search response: `success` flag, optional `error` attribute and
optional `results` attribute (`none` models a missing attribute). -/
structure SearchResponse where
  success : Bool
  error : Option String
  results : Option (List RawSearchResult)
deriving DecidableEq

/-- The intermediate dict `{"url": ..., "title": ..., "content": ..., "data_type": ...}`
appended to `results` in `search_valyu`. -/
structure InterResult where
  url : String
  title : String
  content : PyVal
  data_type : String
deriving DecidableEq

/-- The host's `SearchResult` record (an external value holder with
`link`/`title`/`snippet` fields; `snippet` receives whatever value the
adapter computed, hence `PyVal`). -/
structure SearchResult where
  link : String
  title : String
  snippet : PyVal
deriving DecidableEq

/-- `getattr(result,"content","") or getattr(result,"text","") or getattr(result,"snippet","")`:
first truthy value, else the last operand. -/
def pickContent (r : RawSearchResult) : PyVal :=
  if pyTruthy r.content then r.content
  else if pyTruthy r.text then r.text
  else r.snippet

/-- Lines 66–77 of `web/valyu.py`: the structured-content conversion.
Only runs when `data_type == "structured" and content` is truthy; dict/list
content becomes `json.dumps(content, indent=2)` with `str(content)` as
fallback on serialization failure, other non-string content becomes
`str(content)`, strings pass through. -/
def normalizeContent (data_type : String) (content : PyVal) : PyVal :=
  if data_type = "structured" ∧ pyTruthy content then
    match content with
    | .dict _ => .str ((dumps2 content 0).getD (pyStr content))
    | .list _ => .str ((dumps2 content 0).getD (pyStr content))
    | .str s => .str s
    | other => .str (pyStr other)
  else content

/-- Body of the per-result loop (lines 56–87): normalize one raw result,
keeping it only if its url is truthy. -/
def mkInterResult (r : RawSearchResult) : Option InterResult :=
  if r.url = "" then none
  else some ⟨r.url, r.title, normalizeContent r.data_type (pickContent r), r.data_type⟩

/-- `search_valyu`, with its external collaborators as parameters:
`avail` is whether `from valyu import Valyu` succeeds; `provider api_key`
models `Valyu(api_key=api_key)` (constructor may raise) and yields the
`client.search` function taking `(query, max_num_results)` (which may raise
or return a response); `filterFn` models `get_filtered_results`.
Any raised exception yields the empty list, as the `except` clauses do. -/
def search_valyu (avail : Bool)
    (provider : String → Except String (String → Int → Except String SearchResponse))
    (filterFn : List InterResult → List String → List InterResult)
    (api_key query : String) (count : Int)
    (filter_list : Option (List String)) : List SearchResult :=
  if !avail then []
  else
    match provider api_key with
    | .error _ => []
    | .ok clientSearch =>
      match clientSearch query (if count = 0 then 10 else count) with
      | .error _ => []
      | .ok response =>
        if !response.success then []
        else
          let results : List InterResult :=
            match response.results with
            | some rs => if rs.isEmpty then [] else rs.filterMap mkInterResult
            | none => []
          let filtered : List InterResult :=
            match filter_list with
            | some fl => if !fl.isEmpty ∧ !results.isEmpty then filterFn results fl else results
            | none => results
          filtered.map (fun r => ⟨r.url, r.title, r.content⟩)

/-! ## Extraction adapter: `ValyuLoader` in `retrieval/loaders/valyu.py` -/

/-- The `urls` constructor argument: `Union[str, List[str]]`. -/
inductive UrlsArg where
  | str : String → UrlsArg
  | list : List String → UrlsArg

/-- Python truthiness of the `urls` argument (`if not urls`). -/
def UrlsArg.truthy : UrlsArg → Bool
  | .str s => !s.isEmpty
  | .list l => !l.isEmpty

/-- `urls if isinstance(urls, list) else [urls]` (line 57). -/
def UrlsArg.asList : UrlsArg → List String
  | .str s => [s]
  | .list l => l

inductive InitError where
  | valueError : String → InitError
  | importError : String → InitError
deriving DecidableEq

/-- The state stored by `ValyuLoader.__init__`. -/
structure Loader where
  api_key : String
  urls : List String
  response_length : String
  extract_effort : String
  continue_on_failure : Bool

/-- `ValyuLoader.__init__` (lines 27–61). `valyuAvailable` is whether
`from valyu import Valyu` succeeds. The empty-urls check runs first. -/
def valyuLoaderInit (valyuAvailable : Bool) (urls : UrlsArg) (api_key : String)
    (response_length extract_effort : String) (continue_on_failure : Bool) :
    Except InitError Loader :=
  if !urls.truthy then
    .error (.valueError "At least one URL must be provided.")
  else if !valyuAvailable then
    .error (.importError
      "valyu package not found. Please install it with: pip install valyu")
  else
    .ok ⟨api_key, urls.asList, response_length, extract_effort, continue_on_failure⟩

/-- One item of a provider contents response (fields via `getattr` with
default `""`; `metadata` is `none` when the attribute is missing). -/
structure ContentsResult where
  url : String
  content : String
  metadata : Option PyVal
deriving DecidableEq

/-- Provider contents response: `success` flag, optional `error` attribute,
optional `results` attribute. -/
structure ContentsResponse where
  success : Bool
  error : Option String
  results : Option (List ContentsResult)
deriving DecidableEq

/-- Outcome of one `self.client.contents(...)` call: it either raises or
returns a response. -/
inductive ContentsOutcome where
  | raises : String → ContentsOutcome
  | returns : ContentsResponse → ContentsOutcome
deriving DecidableEq

/-- The host `Document`: `page_content` plus a metadata dict (an ordered
association list, modelling a Python dict built by the loader). -/
structure Document where
  page_content : String
  metadata : List (String × PyVal)
deriving DecidableEq

/-- Python `d[k] = v` on a dict modelled as an ordered association list:
replace in place if the key exists, else append. -/
def dictSet (d : List (String × PyVal)) (k : String) (v : PyVal) :
    List (String × PyVal) :=
  if d.any (fun p => p.1 = k) then
    d.map (fun p => if p.1 = k then (k, v) else p)
  else d ++ [(k, v)]

/-- Python `d.update(new)`: set each key of `new` in order. -/
def dictUpdate (d new : List (String × PyVal)) : List (String × PyVal) :=
  new.foldl (fun acc p => dictSet acc p.1 p.2) d

/-- Python `d[k]` / `d.get(k)`: first (and, keys being unique after
`dictSet`, only) binding of `k`. -/
def dictGet (d : List (String × PyVal)) (k : String) : Option PyVal :=
  (d.find? (fun p => p.1 = k)).map (fun p => p.2)

/-- Lines 88–108 of `loaders/valyu.py`: turn one provider result into an
optional document. Empty content is skipped; metadata starts as
`{"source": url}` and is `update`d with the result's own metadata when that
attribute exists, is truthy and is a dict. -/
def processResult (r : ContentsResult) : Option Document :=
  if r.content = "" then none
  else
    let metadata := [("source", PyVal.str r.url)]
    let metadata :=
      match r.metadata with
      | some m =>
        if pyTruthy m then
          match m with
          | .dict fs => dictUpdate metadata fs.toList
          | _ => metadata
        else metadata
      | none => metadata
    some ⟨r.content, metadata⟩

/-- The documents yielded from one successful batch response. -/
def procResults (rs : List ContentsResult) : List Document :=
  rs.filterMap processResult

/-- Observable behaviour of one `lazy_load` iteration: the documents
yielded, the batches passed to `client.contents` in order, and the
exception (if any) that ended the iteration. -/
structure LoadTrace where
  docs : List Document
  calls : List (List String)
  err : Option String
deriving DecidableEq

/-- The loop body of `lazy_load` (lines 66–116) over an explicit batch
list. On `success=False`: log and skip when `continue_on_failure`, else the
raised `Exception` propagates (the inner `raise` is re-raised by the
`except` clause). A raising `contents` call is likewise skipped or
propagated. -/
def processBatches (cont : Bool) (client : List String → ContentsOutcome) :
    List (List String) → LoadTrace
  | [] => ⟨[], [], none⟩
  | b :: bs =>
    match client b with
    | .raises msg =>
      if cont then
        let t := processBatches cont client bs
        ⟨t.docs, b :: t.calls, t.err⟩
      else ⟨[], [b], some msg⟩
    | .returns response =>
      if response.success then
        let ds :=
          match response.results with
          | some rs => if rs.isEmpty then [] else procResults rs
          | none => []
        let t := processBatches cont client bs
        ⟨ds ++ t.docs, b :: t.calls, t.err⟩
      else
        if cont then
          let t := processBatches cont client bs
          ⟨t.docs, b :: t.calls, t.err⟩
        else ⟨[], [b], some ("Valyu API error: " ++ response.error.getD "Unknown error")⟩

/-- `urls[i : i + 10]` slices for `i in range(0, len(urls), 10)`, written
with a structural fuel that bounds the loop iteration count by `len(urls)`
(the loop runs at most that often since the batch size is positive). -/
def batchGo : Nat → List String → List (List String)
  | _, [] => []
  | 0, _ :: _ => []
  | fuel + 1, x :: xs => ((x :: xs).take 10) :: batchGo fuel ((x :: xs).drop 10)

/-- The batch partition computed by `lazy_load` (lines 65–67). -/
def batchList (urls : List String) : List (List String) :=
  batchGo urls.length urls

/-- `ValyuLoader.lazy_load`, with `client` modelling
`self.client.contents(urls=..., response_length=..., extract_effort=...)`. -/
def lazyLoad (L : Loader)
    (client : List String → String → String → ContentsOutcome) : LoadTrace :=
  processBatches L.continue_on_failure
    (fun b => client b L.response_length L.extract_effort) (batchList L.urls)

/-! ## Dict lemmas (Python `dict.update` semantics) -/

/-- The last binding of `k` in a key/value list — the value a Python dict
holds for `k` after inserting the bindings in order. -/
def lastBind : List (String × PyVal) → String → Option PyVal
  | [], _ => none
  | p :: rest, k =>
    match lastBind rest k with
    | some v => some v
    | none => if p.1 = k then some p.2 else none

theorem find_map_set (k : String) (v : PyVal) (d : List (String × PyVal)) :
    (d.map (fun p => if p.1 = k then (k, v) else p)).find? (fun p => p.1 = k) =
      if d.any (fun p => p.1 = k) then some (k, v) else none := by
  induction d with
  | nil => simp
  | cons p ps ih =>
    by_cases hk : p.1 = k
    · rw [List.map_cons, if_pos hk, List.find?_cons_of_pos _ (by simp),
        if_pos (by simp [hk])]
    · rw [List.map_cons, if_neg hk,
        List.find?_cons_of_neg _ (by simpa using hk), ih,
        List.any_cons, decide_eq_false hk, Bool.false_or]

theorem find_map_set_ne (k k' : String) (v : PyVal) (d : List (String × PyVal))
    (hne : k' ≠ k) :
    (d.map (fun p => if p.1 = k then (k, v) else p)).find? (fun p => p.1 = k') =
      d.find? (fun p => p.1 = k') := by
  induction d with
  | nil => rfl
  | cons p ps ih =>
    by_cases hk : p.1 = k
    · have h1 : ¬(k = k') := fun h => hne h.symm
      have h2 : ¬(p.1 = k') := by rw [hk]; exact h1
      rw [List.map_cons, if_pos hk, List.find?_cons_of_neg _ (by simpa using h1),
        List.find?_cons_of_neg _ (by simpa using h2), ih]
    · by_cases hk' : p.1 = k'
      · rw [List.map_cons, if_neg hk, List.find?_cons_of_pos _ (by simpa using hk'),
          List.find?_cons_of_pos _ (by simpa using hk')]
      · rw [List.map_cons, if_neg hk, List.find?_cons_of_neg _ (by simpa using hk'),
          List.find?_cons_of_neg _ (by simpa using hk'), ih]

theorem dictGet_dictSet_self (d : List (String × PyVal)) (k : String) (v : PyVal) :
    dictGet (dictSet d k v) k = some v := by
  unfold dictGet dictSet
  by_cases h : d.any (fun p => p.1 = k) = true
  · rw [if_pos h, find_map_set k v d, if_pos h]
    rfl
  · rw [if_neg h]
    have hnone : d.find? (fun p => decide (p.1 = k)) = none := by
      rw [List.find?_eq_none]
      intro x hx
      simp only [decide_eq_true_eq]
      intro hxk
      exact h (List.any_eq_true.mpr ⟨x, hx, by simp [hxk]⟩)
    rw [List.find?_append, hnone, Option.none_or]
    simp

theorem dictGet_dictSet_ne (d : List (String × PyVal)) (k k' : String) (v : PyVal)
    (hne : k' ≠ k) : dictGet (dictSet d k v) k' = dictGet d k' := by
  unfold dictGet dictSet
  by_cases h : d.any (fun p => p.1 = k) = true
  · rw [if_pos h, find_map_set_ne k k' v d hne]
  · rw [if_neg h]
    have hk : ¬(k = k') := fun hh => hne hh.symm
    have hone : List.find? (fun p => decide (p.1 = k')) [(k, v)] = none := by
      simp [hk]
    rw [List.find?_append, hone, Option.or_none]

theorem dictGet_dictUpdate (k : String) :
    ∀ (new d : List (String × PyVal)),
      dictGet (dictUpdate d new) k =
        match lastBind new k with
        | some v => some v
        | none => dictGet d k := by
  intro new
  induction new with
  | nil => intro d; rfl
  | cons p rest ih =>
    intro d
    have step : dictUpdate d (p :: rest) = dictUpdate (dictSet d p.1 p.2) rest := rfl
    rw [step, ih (dictSet d p.1 p.2)]
    cases hlb : lastBind rest k with
    | some v => simp [lastBind, hlb]
    | none =>
      by_cases hk : p.1 = k
      · simp [lastBind, hlb, hk]
        exact dictGet_dictSet_self d k p.2
      · simp [lastBind, hlb, hk,
          dictGet_dictSet_ne d p.1 k p.2 (fun h => hk h.symm)]

/-! ## Batching lemmas -/

theorem flatten_batchGo :
    ∀ (fuel : Nat) (l : List String), l.length ≤ fuel →
      (batchGo fuel l).flatten = l := by
  intro fuel
  induction fuel with
  | zero =>
    intro l hl
    have : l = [] := List.eq_nil_of_length_eq_zero (Nat.le_zero.mp hl)
    subst this
    rfl
  | succ fuel ih =>
    intro l hl
    cases l with
    | nil => rfl
    | cons x xs =>
      rw [batchGo, List.flatten_cons, ih _ (by simp at hl ⊢; omega),
        List.take_append_drop]

theorem mem_batchGo :
    ∀ (fuel : Nat) (l : List String) (c : List String),
      c ∈ batchGo fuel l → c.length ≤ 10 ∧ c ≠ [] := by
  intro fuel
  induction fuel with
  | zero =>
    intro l c hc
    cases l <;> simp [batchGo] at hc
  | succ fuel ih =>
    intro l c hc
    cases l with
    | nil => simp [batchGo] at hc
    | cons x xs =>
      rw [batchGo] at hc
      rcases List.mem_cons.mp hc with h | h
      · subst h
        constructor
        · simp
        · simp
      · exact ih _ c h

/-- The batch sizes produced by slicing a list of `n` urls into chunks of
ten. -/
def chunkLens (n : Nat) : List Nat :=
  if n = 0 then [] else min 10 n :: chunkLens (n - 10)
termination_by n
decreasing_by omega

theorem map_length_batchGo :
    ∀ (fuel : Nat) (l : List String), l.length ≤ fuel →
      (batchGo fuel l).map List.length = chunkLens l.length := by
  intro fuel
  induction fuel with
  | zero =>
    intro l hl
    have : l = [] := List.eq_nil_of_length_eq_zero (Nat.le_zero.mp hl)
    subst this
    rw [chunkLens]
    rfl
  | succ fuel ih =>
    intro l hl
    cases l with
    | nil => rw [chunkLens]; rfl
    | cons x xs =>
      rw [batchGo, List.map_cons, ih _ (by simp at hl ⊢; omega),
        List.length_take, List.length_drop]
      conv_rhs => rw [chunkLens]
      rw [if_neg (by simp)]

theorem calls_processBatches (cont : Bool) (client : List String → ContentsOutcome) :
    ∀ bs : List (List String),
      (∀ b ∈ bs, ∃ resp, client b = .returns resp ∧ resp.success = true) →
      (processBatches cont client bs).calls = bs := by
  intro bs
  induction bs with
  | nil => intro _; rfl
  | cons b bs ih =>
    intro h
    obtain ⟨resp, hc, hs⟩ := h b (List.mem_cons_self b bs)
    simp only [processBatches, hc, hs, if_true]
    exact congrArg (b :: ·) (ih fun g hg => h g (List.mem_cons_of_mem b hg))

theorem processBatches_append (cont : Bool) (client : List String → ContentsOutcome) :
    ∀ pre rest : List (List String),
      (∀ g ∈ pre, ∃ resp, client g = .returns resp ∧ resp.success = true) →
      processBatches cont client (pre ++ rest) =
        ⟨(processBatches cont client pre).docs ++ (processBatches cont client rest).docs,
         (processBatches cont client pre).calls ++ (processBatches cont client rest).calls,
         (processBatches cont client rest).err⟩ := by
  intro pre
  induction pre with
  | nil => intro rest _; rfl
  | cons g pre ih =>
    intro rest h
    obtain ⟨resp, hc, hs⟩ := h g (List.mem_cons_self g pre)
    have htl : ∀ g2 ∈ pre, ∃ resp, client g2 = .returns resp ∧ resp.success = true :=
      fun g2 hg => h g2 (List.mem_cons_of_mem g hg)
    show processBatches cont client (g :: (pre ++ rest)) = _
    simp only [processBatches, hc, hs, if_true, ih rest htl]
    simp [List.append_assoc]

theorem mem_docs_processBatches (client : List String → ContentsOutcome) :
    ∀ (bs : List (List String)) (cont : Bool) (d : Document),
      d ∈ (processBatches cont client bs).docs → ∃ r, processResult r = some d := by
  intro bs
  induction bs with
  | nil =>
    intro cont d hd
    simp [processBatches] at hd
  | cons b bs ih =>
    intro cont d hd
    cases hc : client b with
    | raises msg =>
      cases cont with
      | true =>
        simp [processBatches, hc] at hd
        exact ih true d hd
      | false =>
        simp [processBatches, hc] at hd
    | returns resp =>
      obtain ⟨succ, rerr, rres⟩ := resp
      cases succ with
      | true =>
        cases rres with
        | none =>
          simp [processBatches, hc] at hd
          exact ih cont d hd
        | some rs =>
          by_cases hrs : rs.isEmpty = true
          · simp [processBatches, hc, hrs] at hd
            exact ih cont d hd
          · simp [processBatches, hc, hrs, procResults] at hd
            rcases hd with ⟨r, -, hr⟩ | h2
            · exact ⟨r, hr⟩
            · exact ih cont d h2
      | false =>
        cases cont with
        | true =>
          simp [processBatches, hc] at hd
          exact ih true d hd
        | false =>
          simp [processBatches, hc] at hd

/-! ## Shared concrete collaborators for witnesses -/

/-- A provider whose contents call always succeeds with one extractable
result. -/
def okClient : List String → ContentsOutcome :=
  fun _ => .returns ⟨true, none, some [⟨"u", "x", none⟩]⟩

/-- A provider that reports `success=False` (with error "boom") for the
batch `["bad"]` and succeeds for every other batch. -/
def failClient : List String → ContentsOutcome :=
  fun b =>
    if b = ["bad"] then .returns ⟨false, some "boom", none⟩
    else .returns ⟨true, none, some [⟨"u", "x", none⟩]⟩

/-- 25 distinct URLs. -/
def urls25 : List String := (List.range 25).map (fun n => "u" ++ toString n)

/-! ## Claim theorems: extraction adapter -/

/-- Claim C6: for every api_key, tuning parameters and package availability,
constructing the extraction adapter with an empty URL list fails with the
invalid-argument `ValueError`; construction never succeeds on an empty
list. -/
theorem C6_empty_urls_init_fails (avail : Bool) (api_key rl ee : String)
    (cont : Bool) :
    valyuLoaderInit avail (.list []) api_key rl ee cont =
      .error (.valueError "At least one URL must be provided.") := rfl

/-- Claim C7: a provider result with empty content is never yielded as a
document, and a result with content "x" and no provider metadata yields
exactly one document whose metadata is exactly `{"source": url}`. -/
theorem C7_content_gate :
    (∀ r : ContentsResult, r.content = "" → processResult r = none) ∧
    (∀ r : ContentsResult, r.content = "x" → r.metadata = none →
      procResults [r] = [⟨"x", [("source", PyVal.str r.url)]⟩]) := by
  constructor
  · intro r h
    simp [processResult, h]
  · intro r h1 h2
    simp [procResults, processResult, h1, h2]

theorem C7_content_gate_witness :
    processResult ⟨"u", "", none⟩ = none ∧
    procResults [⟨"u", "x", none⟩] = [⟨"x", [("source", PyVal.str "u")]⟩] :=
  ⟨C7_content_gate.1 ⟨"u", "", none⟩ rfl,
   C7_content_gate.2 ⟨"u", "x", none⟩ rfl rfl⟩

/-- Claim C9: the constructor also accepts a single non-empty URL string,
wrapping it into a one-element list, so that `lazy_load` issues exactly one
batch containing exactly that URL (whatever the provider then does). -/
theorem C9_single_string_url (s api_key rl ee : String) (cont : Bool)
    (client : List String → String → String → ContentsOutcome)
    (hs : s ≠ "") :
    valyuLoaderInit true (.str s) api_key rl ee cont =
      .ok ⟨api_key, [s], rl, ee, cont⟩ ∧
    batchList [s] = [[s]] ∧
    (lazyLoad ⟨api_key, [s], rl, ee, cont⟩ client).calls = [[s]] := by
  have hs2 : s.isEmpty = false := by
    cases h : s.isEmpty
    · rfl
    · exact absurd ((String.isEmpty_iff s).mp h) hs
  refine ⟨?_, rfl, ?_⟩
  · simp [valyuLoaderInit, UrlsArg.truthy, UrlsArg.asList, hs2]
  · show (processBatches cont (fun b => client b rl ee) [[s]]).calls = [[s]]
    cases hc : client [s] rl ee with
    | raises msg => cases cont <;> simp [processBatches, hc]
    | returns resp =>
      by_cases hsu : resp.success = true <;> cases cont <;>
        simp [processBatches, hc, hsu]

theorem C9_single_string_url_witness :
    ("u" : String) ≠ "" ∧
    (valyuLoaderInit true (.str "u") "key" "max" "auto" true =
        .ok ⟨"key", ["u"], "max", "auto", true⟩ ∧
      batchList ["u"] = [["u"]] ∧
      (lazyLoad ⟨"key", ["u"], "max", "auto", true⟩
        (fun b _ _ => okClient b)).calls = [["u"]]) :=
  ⟨by decide,
   C9_single_string_url "u" "key" "max" "auto" true (fun b _ _ => okClient b)
     (by decide)⟩

/-- Claim C5: `lazy_load` partitions the URL list into consecutive batches
of at most 10, preserving order (their concatenation is the input), issues
exactly one remote call per batch when the provider keeps succeeding, and
for 25 URLs the batch sizes are 10, 10, 5. -/
theorem C5_batching (urls : List String) (cont : Bool)
    (client : List String → ContentsOutcome)
    (hne : urls ≠ [])
    (hok : ∀ b, ∃ resp, client b = .returns resp ∧ resp.success = true) :
    (batchList urls).flatten = urls ∧
    (∀ c ∈ batchList urls, c.length ≤ 10 ∧ c ≠ []) ∧
    (processBatches cont client (batchList urls)).calls = batchList urls ∧
    (urls.length = 25 → (batchList urls).map List.length = [10, 10, 5]) := by
  refine ⟨flatten_batchGo _ _ le_rfl, fun c hc => mem_batchGo _ _ c hc,
    calls_processBatches cont client _ (fun b _ => hok b), ?_⟩
  intro h25
  have h1 : chunkLens 25 = 10 :: chunkLens 15 := by rw [chunkLens]; norm_num
  have h2 : chunkLens 15 = 10 :: chunkLens 5 := by rw [chunkLens]; norm_num
  have h3 : chunkLens 5 = 5 :: chunkLens 0 := by rw [chunkLens]; norm_num
  have h4 : chunkLens 0 = [] := by rw [chunkLens]; rfl
  rw [batchList, map_length_batchGo _ _ le_rfl, h25, h1, h2, h3, h4]

theorem C5_batching_witness :
    (batchList urls25).flatten = urls25 ∧
    (∀ c ∈ batchList urls25, c.length ≤ 10 ∧ c ≠ []) ∧
    (processBatches true okClient (batchList urls25)).calls = batchList urls25 ∧
    (urls25.length = 25 → (batchList urls25).map List.length = [10, 10, 5]) :=
  C5_batching urls25 true okClient (by decide)
    (fun _ => ⟨⟨true, none, some [⟨"u", "x", none⟩]⟩, rfl, rfl⟩)

/-- Claim C4: on a batch response with `success=False`, with
continue_on_failure the batch yields no documents and the remaining batches
are still processed; without it the iteration ends in a raised error, only
that batch was called from that point on, and documents from earlier
successful batches are unaffected. -/
theorem C4_failed_batch (client : List String → ContentsOutcome)
    (b : List String) (bs : List (List String)) (resp : ContentsResponse)
    (hc : client b = .returns resp) (hs : resp.success = false) :
    processBatches true client (b :: bs) =
      ⟨(processBatches true client bs).docs,
        b :: (processBatches true client bs).calls,
        (processBatches true client bs).err⟩ ∧
    processBatches false client (b :: bs) =
      ⟨[], [b], some ("Valyu API error: " ++ resp.error.getD "Unknown error")⟩ ∧
    (∀ pre : List (List String),
      (∀ g ∈ pre, ∃ r2, client g = .returns r2 ∧ r2.success = true) →
      processBatches false client (pre ++ b :: bs) =
        ⟨(processBatches false client pre).docs,
          (processBatches false client pre).calls ++ [b],
          some ("Valyu API error: " ++ resp.error.getD "Unknown error")⟩) := by
  have k1 : processBatches true client (b :: bs) =
      ⟨(processBatches true client bs).docs,
        b :: (processBatches true client bs).calls,
        (processBatches true client bs).err⟩ := by
    simp [processBatches, hc, hs]
  have k2 : processBatches false client (b :: bs) =
      ⟨[], [b], some ("Valyu API error: " ++ resp.error.getD "Unknown error")⟩ := by
    simp [processBatches, hc, hs]
  refine ⟨k1, k2, ?_⟩
  intro pre hp
  rw [processBatches_append false client pre (b :: bs) hp, k2]
  simp

theorem C4_failed_batch_witness :
    (processBatches true failClient (["bad"] :: [["g"]]) =
      ⟨(processBatches true failClient [["g"]]).docs,
        ["bad"] :: (processBatches true failClient [["g"]]).calls,
        (processBatches true failClient [["g"]]).err⟩) ∧
    (processBatches false failClient (["bad"] :: [["g"]]) =
      ⟨[], [["bad"]],
        some ("Valyu API error: " ++ (some "boom").getD "Unknown error")⟩) ∧
    (processBatches false failClient ([["g"]] ++ ["bad"] :: [["g"]]) =
      ⟨(processBatches false failClient [["g"]]).docs,
        (processBatches false failClient [["g"]]).calls ++ [["bad"]],
        some ("Valyu API error: " ++ (some "boom").getD "Unknown error")⟩) :=
  let h := C4_failed_batch failClient ["bad"] [["g"]] ⟨false, some "boom", none⟩
    (by decide) rfl
  ⟨h.1, h.2.1,
   h.2.2 [["g"]] (fun g hg => by
     rw [List.mem_singleton] at hg
     subst hg
     exact ⟨⟨true, none, some [⟨"u", "x", none⟩]⟩, by decide, rfl⟩)⟩

/-- The value the loader's metadata ends up binding to "source": the origin
url, unless the provider metadata is a truthy dict that itself binds
"source", in which case Python `dict.update` lets the provider value win
(its last binding, as in a dict literal). -/
def expectedSource (r : ContentsResult) : PyVal :=
  match r.metadata with
  | some (PyVal.dict fs) =>
    if fs.isNil then .str r.url
    else (lastBind fs.toList "source").getD (.str r.url)
  | _ => .str r.url

/-- Claim C1 (amended): every document yielded by `lazy_load` comes from a
provider result via `processResult`, and such a document's metadata always
contains the key "source"; its value is the result's origin url except when
the provider-supplied metadata dict itself contains a "source" key, which
then overrides the url (`metadata.update(result_metadata)` gives the
provider's binding precedence). -/
theorem C1_amended_source_value :
    (∀ (client : List String → ContentsOutcome) (bs : List (List String))
        (cont : Bool) (d : Document),
      d ∈ (processBatches cont client bs).docs → ∃ r, processResult r = some d) ∧
    (∀ (r : ContentsResult) (d : Document), processResult r = some d →
      dictGet d.metadata "source" = some (expectedSource r)) := by
  constructor
  · exact fun client bs cont d hd => mem_docs_processBatches client bs cont d hd
  · intro r d hr
    unfold processResult at hr
    by_cases hcon : r.content = ""
    · rw [if_pos hcon] at hr
      exact absurd hr (by simp)
    · rw [if_neg hcon] at hr
      simp only [Option.some.injEq] at hr
      subst hr
      cases hm : r.metadata with
      | none => simp [hm, dictGet, expectedSource]
      | some m =>
        cases m with
        | dict fs =>
          cases fs with
          | nil =>
            simp [hm, dictGet, expectedSource, pyTruthy, PyFields.isNil]
          | cons k v rest =>
            have htr : pyTruthy (PyVal.dict (PyFields.cons k v rest)) = true := rfl
            simp only [hm, htr, if_true]
            rw [dictGet_dictUpdate]
            cases hlb : lastBind (PyFields.cons k v rest).toList "source" with
            | some v2 =>
              simp [expectedSource, hm, hlb, PyFields.isNil]
            | none =>
              simp [expectedSource, hm, hlb, PyFields.isNil, dictGet]
        | str s =>
          cases htr : pyTruthy (PyVal.str s) <;>
            simp [hm, htr, dictGet, expectedSource]
        | num n =>
          cases htr : pyTruthy (PyVal.num n) <;>
            simp [hm, htr, dictGet, expectedSource]
        | list l =>
          cases htr : pyTruthy (PyVal.list l) <;>
            simp [hm, htr, dictGet, expectedSource]
        | obj o =>
          simp [hm, pyTruthy, dictGet, expectedSource]

theorem C1_amended_source_value_witness :
    (∃ r, processResult r = some ⟨"x", [("source", PyVal.str "u")]⟩) ∧
    dictGet [("source", PyVal.str "evil")] "source" =
      some (expectedSource
        ⟨"u", "x", some (.dict (.cons "source" (.str "evil") .nil))⟩) :=
  ⟨C1_amended_source_value.1 okClient [["u"]] true
      ⟨"x", [("source", PyVal.str "u")]⟩ (by decide),
   C1_amended_source_value.2
      ⟨"u", "x", some (.dict (.cons "source" (.str "evil") .nil))⟩
      ⟨"x", [("source", PyVal.str "evil")]⟩ (by decide)⟩

/-- Claim C1 counterexample: on a result whose provider metadata itself
binds "source" (to "evil"), the yielded document's metadata has
"source" = "evil", not the origin url "u" — the shallow merge does change
the "source" entry, contrary to the claim. -/
theorem C1_counterexample_source_overridden :
    (lazyLoad ⟨"key", ["u"], "max", "auto", true⟩
        (fun _ _ _ => .returns ⟨true, none,
          some [⟨"u", "x", some (.dict (.cons "source" (.str "evil") .nil))⟩]⟩)).docs =
      [⟨"x", [("source", PyVal.str "evil")]⟩] ∧
    dictGet [("source", PyVal.str "evil")] "source" ≠ some (PyVal.str "u") :=
  ⟨by decide, by decide⟩

/-! ## Claim theorems: search adapter -/

/-- Claim C3: `search` always returns a list (the embedding is a total
function) and absorbs every provider failure: a missing valyu package, a
raising constructor, and a raising search call each yield the empty
list. -/
theorem C3_search_absorbs_failures
    (provider : String → Except String (String → Int → Except String SearchResponse))
    (filterFn : List InterResult → List String → List InterResult)
    (api_key query : String) (count : Int) (filter_list : Option (List String)) :
    (search_valyu false provider filterFn api_key query count filter_list = []) ∧
    (∀ e, provider api_key = .error e →
      search_valyu true provider filterFn api_key query count filter_list = []) ∧
    (∀ f e, provider api_key = .ok f →
      f query (if count = 0 then 10 else count) = .error e →
      search_valyu true provider filterFn api_key query count filter_list = []) := by
  refine ⟨rfl, ?_, ?_⟩
  · intro e he
    simp [search_valyu, he]
  · intro f e hf he
    simp [search_valyu, hf, he]

theorem C3_search_absorbs_failures_witness :
    search_valyu true (fun _ => .error "ctor boom") (fun l _ => l)
      "k" "q" 3 none = [] ∧
    search_valyu true (fun _ => .ok (fun _ _ => .error "net boom"))
      (fun l _ => l) "k" "q" 3 none = [] :=
  ⟨(C3_search_absorbs_failures (fun _ => .error "ctor boom") (fun l _ => l)
      "k" "q" 3 none).2.1 "ctor boom" rfl,
   (C3_search_absorbs_failures (fun _ => .ok (fun _ _ => .error "net boom"))
      (fun l _ => l) "k" "q" 3 none).2.2 (fun _ _ => .error "net boom")
      "net boom" rfl rfl⟩

/-- Claim C10: a raw result with a non-empty url whose content, text and
snippet fields are all empty strings (or absent, which `getattr` defaults
to "") still becomes a Normalized Search Result with snippet "" — while the
extraction adapter drops empty-content results. -/
theorem C10_empty_content_kept (r : RawSearchResult)
    (filterFn : List InterResult → List String → List InterResult)
    (api_key query : String) (count : Int)
    (hu : r.url ≠ "") (hc : r.content = .str "") (ht : r.text = .str "")
    (hs : r.snippet = .str "") :
    search_valyu true (fun _ => .ok (fun _ _ => .ok ⟨true, none, some [r]⟩))
        filterFn api_key query count none = [⟨r.url, r.title, .str ""⟩] ∧
    (∀ cr : ContentsResult, cr.content = "" → processResult cr = none) := by
  constructor
  · simp [search_valyu, mkInterResult, hu, pickContent, hc, ht, hs,
      normalizeContent, pyTruthy]
  · intro cr h
    simp [processResult, h]

theorem C10_empty_content_kept_witness :
    search_valyu true (fun _ => .ok (fun _ _ => .ok ⟨true, none,
        some [⟨"u", "t", .str "", .str "", .str "", "unstructured"⟩]⟩))
      (fun l _ => l) "k" "q" 3 none = [⟨"u", "t", .str ""⟩] ∧
    processResult ⟨"w", "", none⟩ = none :=
  ⟨(C10_empty_content_kept ⟨"u", "t", .str "", .str "", .str "", "unstructured"⟩
      (fun l _ => l) "k" "q" 3 (by decide) rfl rfl rfl).1,
   (C10_empty_content_kept ⟨"u", "t", .str "", .str "", .str "", "unstructured"⟩
      (fun l _ => l) "k" "q" 3 (by decide) rfl rfl rfl).2 ⟨"w", "", none⟩ rfl⟩

/-- Claim C2 counterexample: with data_type "unstructured" and content the
dict that maps "a" to 1, the search adapter passes the dict through
uncoerced — the resulting snippet is the dict itself, not a string. -/
theorem C2_counterexample_no_coercion :
    search_valyu true
        (fun _ => .ok (fun _ _ => .ok ⟨true, none, some
          [⟨"u", "t", .dict (.cons "a" (.num 1) .nil), .str "", .str "",
            "unstructured"⟩]⟩))
        (fun l _ => l) "k" "q" 5 none =
      [⟨"u", "t", PyVal.dict (.cons "a" (.num 1) .nil)⟩] ∧
    pyIsStr (PyVal.dict (.cons "a" (.num 1) .nil)) = false :=
  ⟨by decide, rfl⟩

/-- Claim C2 (amended): the plain string coercion of non-string content
happens only inside the structured branch: when data_type is "structured"
and content is truthy but neither a string, a dict nor a list, it is coerced
with `str()`; when data_type is anything else the content value reaches the
snippet entirely unchanged. -/
theorem C2_amended_coercion_only_structured :
    (∀ c, pyTruthy c = true → pyIsStr c = false → pyIsDict c = false →
      pyIsList c = false → normalizeContent "structured" c = .str (pyStr c)) ∧
    (∀ dt c, dt ≠ "structured" → normalizeContent dt c = c) := by
  constructor
  · intro c htr hstr hdict hlist
    cases c with
    | str s => simp [pyIsStr] at hstr
    | dict fs => simp [pyIsDict] at hdict
    | list l => simp [pyIsList] at hlist
    | num n => simp [normalizeContent, htr]
    | obj o => simp [normalizeContent, htr]
  · intro dt c hdt
    simp [normalizeContent, hdt]

theorem C2_amended_coercion_only_structured_witness :
    normalizeContent "structured" (.num 7) = .str "7" ∧
    normalizeContent "unstructured" (.num 7) = .num 7 :=
  ⟨C2_amended_coercion_only_structured.1 (.num 7) rfl rfl rfl rfl,
   C2_amended_coercion_only_structured.2 "unstructured" (.num 7) (by decide)⟩

/-- Claim C8: structured dict/list content is serialized to indented JSON
text, falling back to the `str()` coercion when serialization fails; in
particular the dict mapping "a" to 1 with data_type "structured" yields the
snippet equal to its two-space-indented JSON serialization. -/
theorem C8_structured_serialization :
    (∀ k v fs, normalizeContent "structured" (.dict (.cons k v fs)) =
      .str ((dumps2 (.dict (.cons k v fs)) 0).getD
        (pyStr (.dict (.cons k v fs))))) ∧
    (∀ v xs, normalizeContent "structured" (.list (.cons v xs)) =
      .str ((dumps2 (.list (.cons v xs)) 0).getD
        (pyStr (.list (.cons v xs))))) ∧
    (search_valyu true
        (fun _ => .ok (fun _ _ => .ok ⟨true, none, some
          [⟨"u", "t", .dict (.cons "a" (.num 1) .nil), .str "", .str "",
            "structured"⟩]⟩))
        (fun l _ => l) "k" "q" 5 none =
      [⟨"u", "t", .str "\x7b\n  \"a\": 1\n\x7d"⟩]) ∧
    (dumps2 (.dict (.cons "a" (.obj "FAIL") .nil)) 0 = none ∧
      normalizeContent "structured" (.dict (.cons "a" (.obj "FAIL") .nil)) =
        .str (pyStr (.dict (.cons "a" (.obj "FAIL") .nil)))) := by
  refine ⟨fun k v fs => rfl, fun v xs => rfl, by decide, rfl, by decide⟩
